import Mathlib

/-!
Verification of the footbooker booking engine (a JavaScript program that
books football slots on a third-party reservation site).

Shallow embedding conventions used throughout this development:

* An absolute instant (the value of a JavaScript Date, equivalently the
  string produced by Date.toISOString) is modelled as an Int of
  milliseconds since the Unix epoch.  Two date-time strings compare equal
  under the source idiom
    new Date(a).toISOString() === new Date(b).toISOString()
  exactly when their parsed instants are equal, so instant equality on Int
  models that comparison.  String parsing itself (new Date(s)) is an
  external library call; inputs enter the model already parsed.
* The process time zone is a fixed offset tz in minutes, with the meaning
  of JavaScript Date.getTimezoneOffset (UTC minus local; UTC+1 has tz = -60).
  Local wall-clock milliseconds of an instant t are t - tz * 60000.
* Callback-style code taking callback(err, value) is modelled with
  Except String values; the asynchronous waterfalls of the source are
  strictly sequential, so they become Except-monad sequencing.
* JavaScript truthiness tests on a possibly-undefined guid string
  (if (guid), if (bookedGuid), if (!bookedGuid)) are modelled by jsTruthy
  on Option String: undefined and the empty string are falsy.
* Remote outcomes (availability queries, book requests, cancellations) are
  supplied by explicit environment records, one field per remote endpoint.
-/

namespace Footbooker

/-- Milliseconds in one calendar day. -/
def msPerDay : Int := 86400000

/-- JavaScript truthiness of a possibly-undefined string variable:
undefined (none) and the empty string are falsy, every other string is
truthy.  Models the source tests if (guid) and if (bookedGuid). -/
def jsTruthy : Option String → Bool
  | none => false
  | some s => s ≠ ""

/-- Embedding of utils.js dateAndTimeOrDateToDate.  The source parses its
argument and rebuilds a Date from Date.UTC(getUTCFullYear, getUTCMonth,
getUTCDate), i.e. midnight (UTC) of the calendar date obtained by reading
the instant in UTC.  Decomposing an instant into its UTC calendar date and
recomposing midnight of that date is exactly flooring to the enclosing
UTC day boundary, which is how the composition of those Date builtins is
modelled here. -/
def dateAndTimeOrDateToDate (t : Int) : Int :=
  msPerDay * (t.fdiv msPerDay)

/-- Embedding of footbooker.js dateAndTimeToDate.  The source parses its
argument, takes date.toDateString() (the calendar date in local time) and
reparses it, which yields the instant of local midnight of the local
calendar date; it then subtracts getTimezoneOffset() * 60000 from that
instant.  Local midnight of the local day of t is the largest instant m
with m = k * msPerDay + tz * 60000 and m <= t, computed below by flooring
the local wall clock t - tz * 60000 to a day boundary. -/
def dateAndTimeToDate (tz t : Int) : Int :=
  let localMidnight := msPerDay * ((t - tz * 60000).fdiv msPerDay) + tz * 60000
  localMidnight - tz * 60000

/-- The spec-side definition of dateOnly, written from the words of the
specification (section 4.2): the calendar date is the date portion of the
input under local-time interpretation, and the result is midnight of that
calendar date expressed in UTC (the representation the remote availability
query expects, a date followed by T00:00:00.000Z). -/
def specDateOnly (tz t : Int) : Int :=
  msPerDay * ((t - tz * 60000).fdiv msPerDay)

/-- Index of the calendar day containing instant t when t is read in UTC
(days since the epoch). -/
def utcDayIndex (t : Int) : Int := t.fdiv msPerDay

/-- Index of the calendar day containing instant t when t is read in the
local zone of offset tz. -/
def localDayIndex (tz t : Int) : Int := (t - tz * 60000).fdiv msPerDay

/-- Embedding of utils.js datePlusTimeToDateAndTime.  The source parses
dateString, takes date.toDateString() (local calendar date), appends the
time string and reparses the combination.  The time string is modelled as
its minutes past midnight plus a flag telling whether it carries an
explicit Z zone marker: with the marker the combined string is read as
UTC, without it the combined string is read as local wall-clock time. -/
def datePlusTimeToDateAndTime (tz dateInstant timeMin : Int) (timeZoned : Bool) : Int :=
  let localDay := (dateInstant - tz * 60000).fdiv msPerDay
  if timeZoned then localDay * msPerDay + timeMin * 60000
  else localDay * msPerDay + timeMin * 60000 + tz * 60000

/-- Embedding of utils.js getMorePrioritized: a forEach over the
preference list with a mutable found flag and a result accumulator.
Entries are appended while the comparator keeps failing; once it succeeds
the flag is set and every later entry is skipped. -/
def getMorePrioritized {α : Type} (bookedDateAndTime : α) (bookingPreference : List α)
    (comparator : α → α → Bool) : List α :=
  (bookingPreference.foldl
    (fun (st : Bool × List α) book =>
      if st.1 then st
      else if comparator book bookedDateAndTime then (true, st.2)
      else (st.1, st.2 ++ [book]))
    (false, [])).2

/-- Embedding of utils.js getMorePrioritizedDateAndTime: getMorePrioritized
with the comparator that parses both strings and compares the ISO forms,
i.e. instant equality in this model. -/
def getMorePrioritizedDateAndTime (bookedDateAndTime : Int)
    (bookingPreferenceDateAndTime : List Int) : List Int :=
  getMorePrioritized bookedDateAndTime bookingPreferenceDateAndTime
    (fun book booked => book == booked)

/-- One session of the remote ListAvailableSessions response body, as the
code reads it (the fields Name and EndDateTime are never consulted and are
omitted). -/
structure RemoteSession where
  Guid : String
  StartDateTime : Int
  Availability : Int
deriving DecidableEq, Repr

/-- The reduced record {guid, startTime} that connection.js
listAvailableBookings builds for each bookable session. -/
structure AvailableSession where
  guid : String
  startTime : Int
deriving DecidableEq, Repr

/-- Embedding of connection.js listAvailableBookings, from the point where
the response body has been parsed: a non-200 code is an error; otherwise a
forEach pushes {guid, startTime} for every session whose Availability is
at least 0. -/
def listAvailableBookings (code : Int) (sessions : List RemoteSession) :
    Except String (List AvailableSession) :=
  if code ≠ 200 then Except.error "List available bookings failed"
  else Except.ok (sessions.foldl
    (fun acc session =>
      if 0 ≤ session.Availability then acc ++ [⟨session.Guid, session.StartDateTime⟩]
      else acc)
    [])

/-- Embedding of the forEach in index.js tryToBookGivenAvailability that
scans availableSessions and overwrites guid with the guid of every session
whose start instant equals the target, leaving the guid of the last match
(or none when no session matches). -/
def matchGuid (target : Int) (sessions : List AvailableSession) : Option String :=
  sessions.foldl
    (fun g s => if s.startTime = target then some s.guid else g)
    none

/-- The remote traffic an attempt can generate: an availability query for
a date, or a book request for a date and a session guid. -/
inductive NetEvent : Type
  | query (date : Int)
  | book (date : Int) (sessionGuid : String)
deriving DecidableEq, Repr

/-- Environment of remote outcomes for one Searching pass: the result of
the availability query for each date, and the result of the book request
for each date and session guid (connection.js listAvailableBookings and
sendBookRequest seen from their callbacks). -/
structure PassEnv where
  listAvail : Int → Except String (List AvailableSession)
  book : Int → String → Except String String

/-- Embedding of index.js tryToBookGivenAvailability: derive the ISO date
of the desired instant, scan the available sessions keeping the last one
whose start instant equals the desired instant (matchGuid), and if the
kept guid is truthy send the book request for it, otherwise fail with the
not-available error.  The first component records the book request that
was issued (date and session guid), none when no request was sent.
localOrISOToISO of the source is the identity on instants and therefore
does not appear. -/
def tryToBookGivenAvailability (book : Int → String → Except String String)
    (dateAndTime : Int) (availableSessions : List AvailableSession) :
    Option (Int × String) × Except String String :=
  let isoDateString := dateAndTimeOrDateToDate dateAndTime
  match matchGuid dateAndTime availableSessions with
  | some g =>
      if g ≠ "" then (some (isoDateString, g), book isoDateString g)
      else (none, Except.error "Required session is not available")
  | none => (none, Except.error "Required session is not available")

/-- Embedding of index.js checkAvailabilityAndTryToBook: a waterfall that
queries the availability for the date of the desired instant and feeds the
sessions to tryToBookGivenAvailability.  The first component is the list
of remote events the attempt issued, in order. -/
def checkAvailabilityAndTryToBook (env : PassEnv) (dateAndTime : Int) :
    List NetEvent × Except String String :=
  let isoDateString := dateAndTimeOrDateToDate dateAndTime
  match env.listAvail isoDateString with
  | Except.error e => ([NetEvent.query isoDateString], Except.error e)
  | Except.ok sessions =>
      match tryToBookGivenAvailability env.book dateAndTime sessions with
      | (some req, r) => ([NetEvent.query isoDateString, NetEvent.book req.1 req.2], r)
      | (none, r) => ([NetEvent.query isoDateString], r)

/-- The remote events issued by one attempt. -/
def attemptEvents (env : PassEnv) (dateAndTime : Int) : List NetEvent :=
  (checkAvailabilityAndTryToBook env dateAndTime).1

/-- The callback outcome of one attempt. -/
def attemptResult (env : PassEnv) (dateAndTime : Int) : Except String String :=
  (checkAvailabilityAndTryToBook env dateAndTime).2

/-- Whether one attempt ends with a truthy booked guid, which is the
condition under which the pass stops attempting further entries. -/
def attemptSucc (env : PassEnv) (dateAndTime : Int) : Bool :=
  match attemptResult env dateAndTime with
  | Except.ok g => g ≠ ""
  | Except.error _ => false

/-- One iteration of the eachSeries body in index.js tryToBookInOrder:
when bookedGuid is truthy the entry is skipped outright; otherwise the
attempt runs, its events are appended to the trace, and on success (no
callback error) bookedGuid is overwritten with the returned guid. -/
def passStep (env : PassEnv) (st : List NetEvent × Option String) (dateAndTime : Int) :
    List NetEvent × Option String :=
  if jsTruthy st.2 then st
  else
    match attemptResult env dateAndTime with
    | Except.ok g => (st.1 ++ attemptEvents env dateAndTime, some g)
    | Except.error _ => (st.1 ++ attemptEvents env dateAndTime, st.2)

/-- Embedding of index.js tryToBookInOrder: eachSeries over the preference
list threading bookedGuid, then the final callback, which reports the
booked guid when it is truthy and the none-successful error otherwise.
(The error branch of the eachSeries completion callback is unreachable
because per-entry errors are swallowed, and is therefore not modelled.)
The first component is the full ordered trace of remote events of the
pass. -/
def tryToBookInOrder (env : PassEnv) (bookingPreference : List Int) :
    List NetEvent × Except String String :=
  let st := bookingPreference.foldl (passStep env) ([], none)
  (st.1,
    if jsTruthy st.2 then Except.ok (st.2.getD "")
    else Except.error "None of the bookings was successful")

/-- Embedding of index.js keepTryingToBook: async.whilst that keeps
running passes while bookedGuid is falsy, swallowing every pass error.
The pass outcomes are an infinite sequence indexed by pass number; fuel
bounds how many passes we unfold, so none means the loop is still running
after that many passes (the source loop has no exit of its own).  The
index.js version takes the pass as a lambda; footbooker.js fixes it to
tryToBookInOrder on the configured preference list. -/
def keepTryingLoop (outcomes : Nat → Except String String) :
    Nat → Option String → Nat → Option (Except String String)
  | _, booked, 0 =>
      if jsTruthy booked then some (Except.ok (booked.getD "")) else none
  | i, booked, fuel + 1 =>
      if jsTruthy booked then some (Except.ok (booked.getD ""))
      else
        match outcomes i with
        | Except.ok g => keepTryingLoop outcomes (i + 1) (some g) fuel
        | Except.error _ => keepTryingLoop outcomes (i + 1) booked fuel

/-- keepTryingToBook started in its initial state (no booked guid,
next pass number 0). -/
def keepTryingToBook (outcomes : Nat → Except String String) (fuel : Nat) :
    Option (Except String String) :=
  keepTryingLoop outcomes 0 none fuel

/-- The part of the GetBookingInformation response the engine reads. -/
structure BookingInformation where
  Guid : String
  StartDateTime : Int
deriving DecidableEq, Repr

/-- Embedding of index.js tryToRebookBetterOne: run the upgrade booking
lambda; on its error keep the previous booking and report success with the
old guid; on its success cancel the previous booking and report success
with the new guid whether or not the cancellation succeeded.  Every path
calls back without an error. -/
def tryToRebookBetterOne (upgrade : Except String String)
    (cancel : String → Except String Unit) (bookedGuid : String) :
    Except String String :=
  match upgrade with
  | Except.error _ => Except.ok bookedGuid
  | Except.ok guid =>
      match cancel bookedGuid with
      | Except.error _ => Except.ok guid
      | Except.ok _ => Except.ok guid

/-- Environment of remote outcomes for a whole dateAndTimeOrder run:
outcomes of the initial-cookie fetch, the login, the retry loop (the
value keepTryingToBook eventually calls back with), the booking-details
query per guid, and the cancellation per guid. -/
structure RunEnv where
  initialCookies : Except String Unit
  login : Except String Unit
  keepTrying : Except String String
  queryBookInformation : String → Except String BookingInformation
  cancelBooking : String → Except String Unit

/-- Embedding of the async.waterfall of index.js dateAndTimeOrder from the
initial cookie fetch to the final callback: login, retry loop, query the
booked slot, run tryToRebookBetterOne whose upgrade lambda is a real
Searching pass over the strictly-more-preferred entries
(getMorePrioritizedDateAndTime of the booked start time), and finally
query the authoritative booking.  A waterfall aborts at the first step
that calls back with an error, which Except-monad sequencing models; the
final callback logs the error or the result, so the run reports an error
exactly when this function returns one. -/
def dateAndTimeOrderRun (env : RunEnv) (passEnv : PassEnv) (bookingPreference : List Int) :
    Except String BookingInformation :=
  env.initialCookies.bind fun _ =>
  env.login.bind fun _ =>
  env.keepTrying.bind fun guid =>
  (env.queryBookInformation guid).bind fun info =>
  (tryToRebookBetterOne
      (tryToBookInOrder passEnv
        (getMorePrioritizedDateAndTime info.StartDateTime bookingPreference)).2
      env.cancelBooking info.Guid).bind fun finalGuid =>
  env.queryBookInformation finalGuid

/-- Embedding of connection.js setCookies for a single key=value pair of a
set-cookie response header: JavaScript object assignment overwrites the
value when the key is already present and appends the pair otherwise;
nothing is ever removed. -/
def setCookiePair (jar : List (String × String)) (k v : String) :
    List (String × String) :=
  if jar.any (fun p => p.1 = k) then jar.map (fun p => if p.1 = k then (k, v) else p)
  else jar ++ [(k, v)]

/-- Embedding of connection.js setCookies for a whole response: every
key=value pair of the set-cookie headers is merged into the jar in header
order. -/
def setCookies (jar : List (String × String)) (pairs : List (String × String)) :
    List (String × String) :=
  pairs.foldl (fun j p => setCookiePair j p.1 p.2) jar

/-- The value the jar holds for a key (the observation getCookies exposes
when it serialises the jar into the cookie request header). -/
def cookieLookup : List (String × String) → String → Option String
  | [], _ => none
  | p :: ps, k => if p.1 = k then some p.2 else cookieLookup ps k

/-- The last value a list of set-cookie pairs assigns to a key, if any. -/
def lastVal (pairs : List (String × String)) (k : String) : Option String :=
  pairs.foldl (fun acc p => if p.1 = k then some p.2 else acc) none

/-- Embedding of one connection.js sendRequest exchange, restricted to its
cookie effect: the outgoing request carries the current jar (getCookies is
evaluated before the request is written), and the response cookie pairs
are merged into the jar by setCookies before the callback fires.  Returns
the cookie set the request carried and the jar the callback observes. -/
def sendRequestJar (jar : List (String × String)) (respCookies : List (String × String)) :
    List (String × String) × List (String × String) :=
  (jar, setCookies jar respCookies)

/-- A strictly sequential run of requests (the only way the engine uses
the session client): the i-th exchange receives the i-th response cookie
list; the trace collects the cookie set each outgoing request carried,
and the second component is the final jar. -/
def runRequests (jar0 : List (String × String)) (resps : List (List (String × String))) :
    List (List (String × String)) × List (String × String) :=
  resps.foldl
    (fun st resp => (st.1 ++ [(sendRequestJar st.2 resp).1], (sendRequestJar st.2 resp).2))
    ([], jar0)

end Footbooker

namespace Footbooker

/-! Helper lemmas about the folds used by the embeddings. -/

theorem optionOr_none_left {α : Type} (o : Option α) : Option.or none o = o := rfl

theorem optionOr_some_left {α : Type} (a : α) (o : Option α) :
    Option.or (some a) o = some a := rfl

theorem optionOr_assoc {α : Type} (a b c : Option α) :
    Option.or (Option.or a b) c = Option.or a (Option.or b c) := by
  cases a <;> cases b <;> rfl

theorem optionOr_ite_none {α : Type} (c : Prop) [Decidable c] (v : α) (o : Option α) :
    Option.or (if c then some v else none) o = if c then some v else o := by
  by_cases h : c <;> simp [h]

theorem gmp_foldl_found {α : Type} (cmp : α → α → Bool) (b : α) :
    ∀ (l : List α) (acc : List α),
      l.foldl
        (fun (st : Bool × List α) book =>
          if st.1 then st
          else if cmp book b then (true, st.2)
          else (st.1, st.2 ++ [book]))
        (true, acc) = (true, acc) := by
  intro l
  induction l with
  | nil => intro acc; rfl
  | cons a l ih => intro acc; simpa using ih acc

theorem gmp_foldl_notFound {α : Type} (cmp : α → α → Bool) (b : α) :
    ∀ (l : List α) (acc : List α),
      (l.foldl
        (fun (st : Bool × List α) book =>
          if st.1 then st
          else if cmp book b then (true, st.2)
          else (st.1, st.2 ++ [book]))
        (false, acc)).2 = acc ++ l.takeWhile (fun a => ! cmp a b) := by
  intro l
  induction l with
  | nil => intro acc; simp
  | cons a l ih =>
    intro acc
    by_cases h : cmp a b
    · simp [List.takeWhile_cons, h, gmp_foldl_found]
    · simp [List.takeWhile_cons, h, ih (acc ++ [a])]

theorem filter_foldl {α β : Type} (p : α → Prop) [DecidablePred p] (f : α → β) :
    ∀ (l : List α) (acc : List β),
      l.foldl (fun acc a => if p a then acc ++ [f a] else acc) acc
        = acc ++ (l.filter (fun a => decide (p a))).map f := by
  intro l
  induction l with
  | nil => intro acc; simp
  | cons a l ih =>
    intro acc
    by_cases h : p a
    · simp [List.filter_cons, h, ih]
    · simp [List.filter_cons, h, ih]

theorem find?_append {α : Type} (p : α → Bool) :
    ∀ (l₁ l₂ : List α), (l₁ ++ l₂).find? p = Option.or (l₁.find? p) (l₂.find? p) := by
  intro l₁
  induction l₁ with
  | nil => intro l₂; rfl
  | cons a l ih =>
    intro l₂
    by_cases h : p a
    · simp [List.find?_cons, h]
    · simp [List.find?_cons, h, ih]

theorem optionMap_or {α β : Type} (f : α → β) (a b : Option α) :
    (Option.or a b).map f = Option.or (a.map f) (b.map f) := by
  cases a <;> rfl

theorem matchGuid_foldl :
    ∀ (target : Int) (l : List AvailableSession) (acc : Option String),
      l.foldl (fun g s => if s.startTime = target then some s.guid else g) acc
        = Option.or
            ((l.reverse.find? (fun s => s.startTime == target)).map AvailableSession.guid)
            acc := by
  intro target l
  induction l with
  | nil => intro acc; rfl
  | cons s l ih =>
    intro acc
    have hfind := find?_append (fun s : AvailableSession => s.startTime == target)
      l.reverse [s]
    by_cases h : s.startTime = target
    · simp only [List.foldl_cons, h, if_pos rfl, ih, List.reverse_cons, hfind]
      simp [List.find?, h, optionMap_or, optionOr_assoc]
    · have hb : (s.startTime == target) = false := by simp [h]
      simp only [List.foldl_cons, if_neg h, ih, List.reverse_cons, hfind]
      simp [List.find?, hb, optionMap_or, optionOr_assoc]

theorem matchGuid_eq_lastMatch (target : Int) (sessions : List AvailableSession) :
    matchGuid target sessions
      = (sessions.reverse.find? (fun s => s.startTime == target)).map AvailableSession.guid := by
  have h := matchGuid_foldl target sessions none
  cases hfind : (sessions.reverse.find? (fun s => s.startTime == target)).map
      AvailableSession.guid <;>
    simpa [matchGuid, hfind] using h

end Footbooker

namespace Footbooker

/-! Characterisation of a Searching pass. -/

theorem passStep_foldl_truthy (env : PassEnv) :
    ∀ (l : List Int) (acc : List NetEvent) (o : Option String),
      jsTruthy o = true → List.foldl (passStep env) (acc, o) l = (acc, o) := by
  intro l
  induction l with
  | nil => intro acc o _; rfl
  | cons t l ih =>
    intro acc o h
    have hstep : passStep env (acc, o) t = (acc, o) := by simp [passStep, h]
    simpa [hstep] using ih acc o h

theorem attemptSucc_ok {env : PassEnv} {t : Int} {g : String}
    (hr : attemptResult env t = Except.ok g) (hs : attemptSucc env t = true) :
    g ≠ "" := by
  have := hs
  simp only [attemptSucc, hr] at this
  simpa using this

theorem passTrace (env : PassEnv) :
    ∀ (l : List Int) (acc : List NetEvent) (o : Option String),
      jsTruthy o = false →
      (List.foldl (passStep env) (acc, o) l).1
        = acc ++ (l.takeWhile (fun t => ! attemptSucc env t)
            ++ (l.dropWhile (fun t => ! attemptSucc env t)).take 1).bind (attemptEvents env) := by
  intro l
  induction l with
  | nil => intro acc o _; simp
  | cons t l ih =>
    intro acc o ho
    cases hs : attemptSucc env t with
    | true =>
      cases hr : attemptResult env t with
      | ok g =>
        have hg : jsTruthy (some g) = true := by
          simpa [jsTruthy] using attemptSucc_ok hr hs
        have hstep : passStep env (acc, o) t = (acc ++ attemptEvents env t, some g) := by
          simp [passStep, ho, hr]
        simp [hstep, passStep_foldl_truthy env l _ _ hg, List.takeWhile_cons, hs,
          List.dropWhile_cons]
      | error e =>
        exfalso
        have := hs
        simp [attemptSucc, hr] at this
    | false =>
      have hnext : ∃ o2, passStep env (acc, o) t = (acc ++ attemptEvents env t, o2)
          ∧ jsTruthy o2 = false := by
        cases hr : attemptResult env t with
        | ok g =>
          refine ⟨some g, by simp [passStep, ho, hr], ?_⟩
          have := hs
          simp only [attemptSucc, hr] at this
          simpa [jsTruthy] using this
        | error e => exact ⟨o, by simp [passStep, ho, hr], ho⟩
      obtain ⟨o2, hstep, ho2⟩ := hnext
      simp [hstep, ih (acc ++ attemptEvents env t) o2 ho2, List.takeWhile_cons, hs,
        List.dropWhile_cons]

theorem passResult (env : PassEnv) :
    ∀ (l : List Int) (acc : List NetEvent) (o : Option String),
      jsTruthy o = false →
      (if jsTruthy (List.foldl (passStep env) (acc, o) l).2
        then Except.ok (((List.foldl (passStep env) (acc, o) l).2).getD "")
        else Except.error "None of the bookings was successful")
        = (match (l.dropWhile (fun t => ! attemptSucc env t)).head? with
          | some t => attemptResult env t
          | none => Except.error "None of the bookings was successful") := by
  intro l
  induction l with
  | nil => intro acc o ho; simp [ho]
  | cons t l ih =>
    intro acc o ho
    cases hs : attemptSucc env t with
    | true =>
      cases hr : attemptResult env t with
      | ok g =>
        have hg : jsTruthy (some g) = true := by
          simpa [jsTruthy] using attemptSucc_ok hr hs
        have hstep : passStep env (acc, o) t = (acc ++ attemptEvents env t, some g) := by
          simp [passStep, ho, hr]
        simp [hstep, passStep_foldl_truthy env l _ _ hg, hg, List.dropWhile_cons, hs, hr]
      | error e =>
        exfalso
        have := hs
        simp [attemptSucc, hr] at this
    | false =>
      have hnext : ∃ o2, passStep env (acc, o) t = (acc ++ attemptEvents env t, o2)
          ∧ jsTruthy o2 = false := by
        cases hr : attemptResult env t with
        | ok g =>
          refine ⟨some g, by simp [passStep, ho, hr], ?_⟩
          have := hs
          simp only [attemptSucc, hr] at this
          simpa [jsTruthy] using this
        | error e => exact ⟨o, by simp [passStep, ho, hr], ho⟩
      obtain ⟨o2, hstep, ho2⟩ := hnext
      simp [hstep, ih (acc ++ attemptEvents env t) o2 ho2, List.dropWhile_cons, hs]

/-- C1 counterexample: an environment in which the first preference entry
is available and its book request succeeds remotely (code 200) but the
returned booking guid is the empty string.  The first conjunct shows the
first entry's attempt succeeded; the second shows the pass nevertheless
issued the availability query and the book request of the second entry,
contradicting the claim that once one entry's book succeeds no later
entry is attempted. -/
theorem c1_counterexample :
    (checkAvailabilityAndTryToBook
        ⟨fun _ => Except.ok [⟨"s1", 0⟩, ⟨"s2", 86400000⟩],
         fun _ g => if g = "s1" then Except.ok "" else Except.ok "G2"⟩ 0).2
      = Except.ok ""
    ∧ (tryToBookInOrder
        ⟨fun _ => Except.ok [⟨"s1", 0⟩, ⟨"s2", 86400000⟩],
         fun _ g => if g = "s1" then Except.ok "" else Except.ok "G2"⟩
        [0, 86400000]).1
      = [NetEvent.query 0, NetEvent.book 0 "s1",
         NetEvent.query 86400000, NetEvent.book 86400000 "s2"] := by
  constructor <;> rfl

/-- C1 (amended): a Searching pass tries the preference entries strictly
in list order; the entries attempted (with their availability queries and
book requests, in order) are exactly the longest prefix of entries whose
attempts do not produce a truthy booked guid, plus the first entry whose
attempt does; after that entry nothing is queried or booked.  A failing
entry never prevents the next entry from being attempted, and the pass
outcome is the first truthy-success outcome, or the none-successful error
when there is none.  (Amendment forced by the counterexample: a book
success whose returned identifier is the empty string is falsy in the
source's truthiness tests, so it does not stop the pass; the claim's
stopping rule holds for attempts that return a non-empty identifier.) -/
theorem c1_pass_order_amended :
    ∀ (env : PassEnv) (bookingPreference : List Int),
      (tryToBookInOrder env bookingPreference).1
        = (bookingPreference.takeWhile (fun t => ! attemptSucc env t)
            ++ (bookingPreference.dropWhile (fun t => ! attemptSucc env t)).take 1).bind
            (attemptEvents env)
      ∧ (tryToBookInOrder env bookingPreference).2
        = (match (bookingPreference.dropWhile (fun t => ! attemptSucc env t)).head? with
          | some t => attemptResult env t
          | none => Except.error "None of the bookings was successful") := by
  intro env prefs
  constructor
  · simpa using passTrace env prefs [] none rfl
  · simpa using passResult env prefs [] none rfl

/-- C2: getMorePrioritized returns exactly the entries strictly before the
first entry the comparator relates to the booked value (the whole list
when there is none); for getMorePrioritizedDateAndTime the comparator is
instant equality, and the three listed instances follow, with 1, 2, 3
standing for the instants A, B, C. -/
theorem c2_getMorePrioritized_before_first_match :
    (∀ {α : Type} (cmp : α → α → Bool) (b : α) (L : List α),
        getMorePrioritized b L cmp = L.takeWhile (fun a => ! cmp a b))
    ∧ (∀ (b : Int) (L : List Int),
        getMorePrioritizedDateAndTime b L = L.takeWhile (fun a => ! (a == b)))
    ∧ getMorePrioritizedDateAndTime 2 [1, 2, 3] = [1]
    ∧ getMorePrioritizedDateAndTime 1 [1, 2, 3] = []
    ∧ getMorePrioritizedDateAndTime 5 [1, 2, 3] = [1, 2, 3] := by
  have hmain : ∀ {α : Type} (cmp : α → α → Bool) (b : α) (L : List α),
      getMorePrioritized b L cmp = L.takeWhile (fun a => ! cmp a b) := by
    intro α cmp b L
    simpa [getMorePrioritized] using gmp_foldl_notFound cmp b L []
  refine ⟨hmain, fun b L => ?_, by decide, by decide, by decide⟩
  simp [getMorePrioritizedDateAndTime, hmain]

/-- C5: for a response with code 200, listAvailableBookings returns
exactly the sessions whose Availability is non-negative, in their original
order, each reduced to its guid and start time; in particular no session
with negative Availability appears in the result. -/
theorem c5_listAvailableBookings_filter :
    ∀ (sessions : List RemoteSession),
      listAvailableBookings 200 sessions
        = Except.ok ((sessions.filter (fun s => decide (0 ≤ s.Availability))).map
            (fun s => AvailableSession.mk s.Guid s.StartDateTime)) := by
  intro sessions
  simpa [listAvailableBookings] using
    filter_foldl (fun s : RemoteSession => 0 ≤ s.Availability)
      (fun s => AvailableSession.mk s.Guid s.StartDateTime) sessions []

/-- C10 counterexample: two available sessions both start exactly at the
desired instant, but the later of the two carries the empty-string guid;
the scan keeps the last match, the truthiness test rejects it, and no book
request is sent at all (the attempt fails as not-available), contradicting
the claim that the book request is sent for the last matching session's
guid. -/
theorem c10_counterexample :
    (tryToBookGivenAvailability (fun _ g => Except.ok g) 0
        [⟨"g1", 0⟩, ⟨"", 0⟩]).1 = none
    ∧ (tryToBookGivenAvailability (fun _ g => Except.ok g) 0
        [⟨"g1", 0⟩, ⟨"", 0⟩]).2
      = Except.error "Required session is not available" := by
  constructor <;> rfl

/-- C10 (amended): when several available sessions start exactly at the
desired instant, tryToBookGivenAvailability keeps the last such session in
list order (the scan overwrites the candidate guid on every match); if
that session's guid is truthy (non-empty) the book request is sent for it
and never for an earlier match, as the concrete two-match instance shows;
if the last match's guid is the empty string no book request is sent and
the attempt fails as not-available.  (Amendment forced by the
counterexample: the source guards the book request with a truthiness test
on the selected guid.) -/
theorem c10_last_match_amended :
    (∀ (target : Int) (sessions : List AvailableSession),
        matchGuid target sessions
          = (sessions.reverse.find? (fun s => s.startTime == target)).map
              AvailableSession.guid)
    ∧ (∀ (book : Int → String → Except String String) (target : Int)
          (sessions : List AvailableSession),
        (tryToBookGivenAvailability book target sessions).1
          = (match (sessions.reverse.find? (fun s => s.startTime == target)).map
                AvailableSession.guid with
            | some g =>
                if g ≠ "" then some (dateAndTimeOrDateToDate target, g) else none
            | none => none))
    ∧ (tryToBookGivenAvailability (fun _ g => Except.ok g) 0
        [⟨"g1", 0⟩, ⟨"g2", 0⟩]).1 = some (0, "g2") := by
  refine ⟨matchGuid_eq_lastMatch, fun book target sessions => ?_, by rfl⟩
  rw [tryToBookGivenAvailability, matchGuid_eq_lastMatch]
  cases (sessions.reverse.find? (fun s => s.startTime == target)).map
      AvailableSession.guid with
  | none => rfl
  | some g => by_cases hg : g = "" <;> simp [hg]

end Footbooker

namespace Footbooker

/-! The retry loop and the rebook step. -/

theorem keepTryingLoop_truthy (outcomes : Nat → Except String String) :
    ∀ (fuel i : Nat) (booked : Option String), jsTruthy booked = true →
      keepTryingLoop outcomes i booked fuel = some (Except.ok (booked.getD "")) := by
  intro fuel i booked h
  cases fuel <;> simp [keepTryingLoop, h]

theorem keepTryingLoop_ok (outcomes : Nat → Except String String) :
    ∀ (fuel i : Nat) (booked : Option String) (r : Except String String),
      jsTruthy booked = false →
      keepTryingLoop outcomes i booked fuel = some r →
      ∃ j g, r = Except.ok g ∧ outcomes j = Except.ok g ∧ g ≠ "" := by
  intro fuel
  induction fuel with
  | zero =>
    intro i booked r ho hr
    simp [keepTryingLoop, ho] at hr
  | succ fuel ih =>
    intro i booked r ho hr
    rw [keepTryingLoop, if_neg (by simp [ho])] at hr
    cases hout : outcomes i with
    | ok g =>
      rw [hout] at hr
      dsimp only at hr
      by_cases hg : g = ""
      · subst hg
        exact ih (i + 1) (some "") r (by simp [jsTruthy]) hr
      · have := keepTryingLoop_truthy outcomes fuel (i + 1) (some g)
          (by simp [jsTruthy, hg])
        rw [this] at hr
        exact ⟨i, g, by simpa using hr.symm, hout, hg⟩
    | error e =>
      rw [hout] at hr
      dsimp only at hr
      exact ih (i + 1) booked r ho hr

theorem keepTryingLoop_allFail (outcomes : Nat → Except String String)
    (hall : ∀ i, ∃ e, outcomes i = Except.error e) :
    ∀ (fuel i : Nat) (booked : Option String), jsTruthy booked = false →
      keepTryingLoop outcomes i booked fuel = none := by
  intro fuel
  induction fuel with
  | zero => intro i booked ho; simp [keepTryingLoop, ho]
  | succ fuel ih =>
    intro i booked ho
    obtain ⟨e, he⟩ := hall i
    rw [keepTryingLoop, if_neg (by simp [ho]), he]
    exact ih (i + 1) booked ho

/-- C7: the retry loop never terminates with an error of its own.  For
every sequence of pass outcomes, whenever keepTryingToBook has returned
(some result within any fuel bound), that result is a success carrying a
non-empty identifier that some pass returned; and when every pass fails,
the loop is still running after any number of passes (it keeps starting a
new pass, unboundedly, and never surfaces a pass failure as its result).
The fixed sleep before each pass only delays iterations and is not part
of the model. -/
theorem c7_retry_never_gives_up :
    ∀ (outcomes : Nat → Except String String),
      (∀ (fuel : Nat) (r : Except String String),
          keepTryingToBook outcomes fuel = some r →
          ∃ i g, r = Except.ok g ∧ outcomes i = Except.ok g ∧ g ≠ "")
      ∧ ((∀ i, ∃ e, outcomes i = Except.error e) →
          ∀ fuel, keepTryingToBook outcomes fuel = none) := by
  intro outcomes
  constructor
  · intro fuel r hr
    exact keepTryingLoop_ok outcomes fuel 0 none r rfl hr
  · intro hall fuel
    exact keepTryingLoop_allFail outcomes hall fuel 0 none rfl

/-- Closed instance of C7: a loop whose first pass succeeds with guid G
terminates with that guid, and a loop whose passes all fail is still
running after three passes. -/
theorem c7_retry_never_gives_up_witness :
    (∃ i g, (Except.ok "G" : Except String String) = Except.ok g
        ∧ (fun _ : Nat => (Except.ok "G" : Except String String)) i = Except.ok g
        ∧ g ≠ "")
    ∧ keepTryingToBook (fun _ => Except.error "boom") 3 = none :=
  ⟨(c7_retry_never_gives_up (fun _ => Except.ok "G")).1 1 (Except.ok "G") rfl,
   (c7_retry_never_gives_up (fun _ => Except.error "boom")).2 (fun _ => ⟨"boom", rfl⟩) 3⟩

/-- C4: tryToRebookBetterOne reports success with the new identifier
whenever the upgrade booking succeeds, in particular when the subsequent
cancellation of the old booking fails; and reports success with the old
identifier when the upgrade booking itself fails. -/
theorem c4_rebook_identifier :
    ∀ (oldGuid newGuid e : String) (cancel : String → Except String Unit),
      tryToRebookBetterOne (Except.ok newGuid) (fun _ => Except.error e) oldGuid
        = Except.ok newGuid
      ∧ tryToRebookBetterOne (Except.ok newGuid) cancel oldGuid = Except.ok newGuid
      ∧ tryToRebookBetterOne (Except.error e) cancel oldGuid = Except.ok oldGuid := by
  intro oldGuid newGuid e cancel
  refine ⟨rfl, ?_, rfl⟩
  unfold tryToRebookBetterOne
  cases cancel oldGuid <;> rfl

theorem rebook_never_errors :
    ∀ (upgrade : Except String String) (cancel : String → Except String Unit)
      (bookedGuid : String),
      ∃ g, tryToRebookBetterOne upgrade cancel bookedGuid = Except.ok g := by
  intro upgrade cancel bookedGuid
  unfold tryToRebookBetterOne
  cases upgrade with
  | error e => exact ⟨bookedGuid, rfl⟩
  | ok guid => cases cancel bookedGuid <;> exact ⟨guid, rfl⟩

/-- C3 counterexample: an environment in which authentication succeeds and
keepTryingToBook returns the booking identifier g0, but the
queryBookInformation call that follows it (querying the booked slot's
details before the upgrade pass) fails; the async.waterfall aborts and the
run's final outcome is that error, contradicting the claim that once
keepTryingToBook returns an identifier the run's final outcome is a
success. -/
theorem c3_counterexample :
    RunEnv.keepTrying
        ⟨Except.ok (), Except.ok (), Except.ok "g0",
         fun _ => Except.error "Query book information failed",
         fun _ => Except.ok ()⟩
      = Except.ok "g0"
    ∧ dateAndTimeOrderRun
        ⟨Except.ok (), Except.ok (), Except.ok "g0",
         fun _ => Except.error "Query book information failed",
         fun _ => Except.ok ()⟩
        ⟨fun _ => Except.ok [], fun _ g => Except.ok g⟩ []
      = Except.error "Query book information failed" :=
  ⟨rfl, rfl⟩

/-- C3 (amended): failures of the upgrade pass itself and of cancelling
the old booking are fully isolated (tryToRebookBetterOne always calls back
with a success), and when every queryBookInformation call succeeds, a run
whose authentication steps succeed and whose retry loop returns an
identifier ends in success whatever the upgrade pass and cancellation do;
however, a queryBookInformation failure - either when querying the booked
slot's details before the upgrade pass or in the final query - propagates
through the waterfall and the run reports it as an error, so the claim's
inclusion of that query among the isolated failures is wrong. -/
theorem c3_upgrade_isolation_amended :
    (∀ (upgrade : Except String String) (cancel : String → Except String Unit)
        (bookedGuid : String),
        ∃ g, tryToRebookBetterOne upgrade cancel bookedGuid = Except.ok g)
    ∧ (∀ (env : RunEnv) (passEnv : PassEnv) (bookingPreference : List Int) (g : String),
        env.initialCookies = Except.ok () →
        env.login = Except.ok () →
        env.keepTrying = Except.ok g →
        (∀ guid, ∃ info, env.queryBookInformation guid = Except.ok info) →
        ∃ info, dateAndTimeOrderRun env passEnv bookingPreference = Except.ok info) := by
  refine ⟨rebook_never_errors, ?_⟩
  intro env passEnv bookingPreference g h1 h2 h3 hq
  obtain ⟨info, hinfo⟩ := hq g
  obtain ⟨fin, hfin⟩ := rebook_never_errors
    (tryToBookInOrder passEnv
      (getMorePrioritizedDateAndTime info.StartDateTime bookingPreference)).2
    env.cancelBooking info.Guid
  obtain ⟨info2, hinfo2⟩ := hq fin
  exact ⟨info2, by simp [dateAndTimeOrderRun, h1, h2, h3, hinfo, hfin, hinfo2, Except.bind]⟩

/-- Closed instance of C3 (amended): with all queries succeeding, a run
whose retry loop returned the identifier g ends in success, and a failing
cancellation inside tryToRebookBetterOne still yields a success. -/
theorem c3_upgrade_isolation_witness :
    (∃ g, tryToRebookBetterOne (Except.ok "newG") (fun _ => Except.error "cancel failed") "oldG"
        = Except.ok g)
    ∧ (∃ info, dateAndTimeOrderRun
        ⟨Except.ok (), Except.ok (), Except.ok "g",
         fun _ => Except.ok ⟨"g", 0⟩, fun _ => Except.ok ()⟩
        ⟨fun _ => Except.ok [], fun _ g => Except.ok g⟩ []
        = Except.ok info) :=
  ⟨c3_upgrade_isolation_amended.1 (Except.ok "newG") (fun _ => Except.error "cancel failed")
      "oldG",
   c3_upgrade_isolation_amended.2
      ⟨Except.ok (), Except.ok (), Except.ok "g",
       fun _ => Except.ok ⟨"g", 0⟩, fun _ => Except.ok ()⟩
      ⟨fun _ => Except.ok [], fun _ g => Except.ok g⟩ [] "g" rfl rfl rfl
      (fun _ => ⟨⟨"g", 0⟩, rfl⟩)⟩

end Footbooker

namespace Footbooker

/-! Date truncation and date-time composition. -/

/-- C6 counterexample: in a UTC+1 local context (offset -60) take the
instant 84600000, i.e. 1970-01-01T23:30Z, whose local calendar date is
1970-01-02 (local day index 1).  dateAndTimeOrDateToDate returns 0, i.e.
1970-01-01T00:00Z, whose calendar date is 1970-01-01 (day index 0) under
both UTC and local reading - not the date portion of the input under
local-time interpretation, and different from the spec-side specDateOnly
value 86400000.  The source truncates to the UTC calendar date, as its
own comment (the date in UTC is considered) states. -/
theorem c6_counterexample :
    dateAndTimeOrDateToDate 84600000 = 0
    ∧ localDayIndex (-60) 84600000 = 1
    ∧ utcDayIndex (dateAndTimeOrDateToDate 84600000) = 0
    ∧ localDayIndex (-60) (dateAndTimeOrDateToDate 84600000) = 0
    ∧ specDateOnly (-60) 84600000 = 86400000
    ∧ dateAndTimeOrDateToDate 84600000 ≠ specDateOnly (-60) 84600000 := by
  refine ⟨by decide, by decide, by decide, by decide, by decide, by decide⟩

/-- C6 (amended): dateAndTimeOrDateToDate truncates an instant to its
calendar date under UTC interpretation and returns midnight (UTC) of that
date: the result lies on a day boundary, shares the input's UTC day index,
and is the largest day boundary not exceeding the input.  The local-date
behaviour the claim describes is instead exhibited by the footbooker.js
variant dateAndTimeToDate, which coincides with the spec-side specDateOnly
(midnight, expressed in UTC, of the input's local calendar date) for every
offset and instant. -/
theorem c6_dateOnly_amended :
    ∀ (tz t : Int),
      utcDayIndex (dateAndTimeOrDateToDate t) = utcDayIndex t
      ∧ dateAndTimeOrDateToDate t % msPerDay = 0
      ∧ dateAndTimeOrDateToDate t ≤ t
      ∧ t < dateAndTimeOrDateToDate t + msPerDay
      ∧ dateAndTimeToDate tz t = specDateOnly tz t := by
  intro tz t
  have hpos : (0 : Int) < msPerDay := by norm_num [msPerDay]
  have hne : msPerDay ≠ (0 : Int) := by norm_num [msPerDay]
  have hfd : t.fdiv msPerDay = t / msPerDay := Int.fdiv_eq_ediv t (le_of_lt hpos)
  refine ⟨?_, ?_, ?_, ?_, ?_⟩
  · simp [utcDayIndex, dateAndTimeOrDateToDate, Int.mul_fdiv_cancel_left _ hne]
  · simp [dateAndTimeOrDateToDate, Int.mul_emod_right]
  · have hfd2 : t.fdiv 86400000 = t / 86400000 := Int.fdiv_eq_ediv t (by norm_num)
    simp only [dateAndTimeOrDateToDate, msPerDay, hfd2]
    omega
  · have hfd2 : t.fdiv 86400000 = t / 86400000 := Int.fdiv_eq_ediv t (by norm_num)
    simp only [dateAndTimeOrDateToDate, msPerDay, hfd2]
    omega
  · simp only [dateAndTimeToDate, specDateOnly]
    ring

/-- C8: the three literal fixtures of datePlusTimeToDateAndTime in a UTC+1
local context (offset -60).  The instants encode the fixture strings:
1508968800000 is the parse of 2017-10-25T23:00 read as local time,
1508972400000 is the parse of 2017-10-25T23:00Z, the time string 21:00 is
1260 minutes with the zoned flag telling whether it carries Z, and the
results are 2017-10-25T20:00:00.000Z, 2017-10-26T20:00:00.000Z and
2017-10-26T21:00:00.000Z respectively. -/
theorem c8_combineDateAndTime_fixtures :
    datePlusTimeToDateAndTime (-60) 1508968800000 1260 false = 1508961600000
    ∧ datePlusTimeToDateAndTime (-60) 1508972400000 1260 false = 1509048000000
    ∧ datePlusTimeToDateAndTime (-60) 1508972400000 1260 true = 1509051600000 := by
  refine ⟨by decide, by decide, by decide⟩

end Footbooker

namespace Footbooker

/-! Cookie jar lemmas. -/

theorem cookieLookup_map_ne (k v : String) :
    ∀ (jar : List (String × String)) (q : String), q ≠ k →
      cookieLookup (jar.map (fun p => if p.1 = k then (k, v) else p)) q
        = cookieLookup jar q := by
  intro jar
  induction jar with
  | nil => intro q _; rfl
  | cons p ps ih =>
    intro q hq
    by_cases hp : p.1 = k
    · have hkq : ¬(k = q) := fun h => hq h.symm
      simp [cookieLookup, hp, hkq, hq, ih q hq]
    · by_cases hpq : p.1 = q
      · simp [cookieLookup, hp, hpq, hq]
      · simp [cookieLookup, hp, hpq, ih q hq]

theorem lookup_setCookiePair :
    ∀ (jar : List (String × String)) (k v q : String),
      cookieLookup (setCookiePair jar k v) q
        = if q = k then some v else cookieLookup jar q := by
  intro jar k v
  induction jar with
  | nil =>
    intro q
    by_cases h : q = k
    · subst h
      simp [setCookiePair, cookieLookup]
    · have hk : ¬(k = q) := fun hh => h hh.symm
      simp [setCookiePair, cookieLookup, h, hk]
  | cons p ps ih =>
    intro q
    by_cases hp : p.1 = k
    · have hany : (p :: ps).any (fun r => r.1 = k) = true := by simp [hp]
      by_cases hq : q = k
      · subst hq
        simp [setCookiePair, hany, cookieLookup, hp]
      · have hkq : ¬(k = q) := fun h => hq h.symm
        have hpq : ¬(p.1 = q) := by rw [hp]; exact hkq
        simp only [setCookiePair, hany, if_true, List.map_cons, if_pos hp]
        simp [cookieLookup, hkq, hpq, hq, cookieLookup_map_ne k v ps q hq]
    · cases hany : ps.any (fun r => r.1 = k) with
      | true =>
        have hany2 : (p :: ps).any (fun r => r.1 = k) = true := by simp [hany]
        have ihq := ih q
        simp only [setCookiePair, hany, if_true] at ihq
        simp only [setCookiePair, hany2, if_true, List.map_cons, if_neg hp]
        by_cases hpq : p.1 = q
        · have hqk : ¬(q = k) := by
            intro h
            exact hp (by rw [hpq, h])
          simp [cookieLookup, hpq, hqk]
        · simp [cookieLookup, hpq, ihq]
      | false =>
        have hany2 : (p :: ps).any (fun r => r.1 = k) = false := by simp [hany, hp]
        have ihq := ih q
        simp only [setCookiePair, hany, Bool.false_eq_true, if_false] at ihq
        simp only [setCookiePair, hany2, Bool.false_eq_true, if_false, List.cons_append]
        by_cases hpq : p.1 = q
        · have hqk : ¬(q = k) := by
            intro h
            exact hp (by rw [hpq, h])
          simp [cookieLookup, hpq, hqk]
        · simp [cookieLookup, hpq, ihq]

theorem lastVal_foldl (k : String) :
    ∀ (pairs : List (String × String)) (acc : Option String),
      pairs.foldl (fun a p => if p.1 = k then some p.2 else a) acc
        = Option.or (lastVal pairs k) acc := by
  intro pairs
  induction pairs with
  | nil => intro acc; rfl
  | cons p ps ih =>
    intro acc
    have hl : lastVal (p :: ps) k
        = Option.or (lastVal ps k) (if p.1 = k then some p.2 else none) := by
      simp only [lastVal, List.foldl_cons]
      exact ih (if p.1 = k then some p.2 else none)
    rw [List.foldl_cons, ih, hl, optionOr_assoc, optionOr_ite_none]

theorem lookup_setCookies :
    ∀ (pairs jar : List (String × String)) (k : String),
      cookieLookup (setCookies jar pairs) k
        = Option.or (lastVal pairs k) (cookieLookup jar k) := by
  intro pairs
  induction pairs with
  | nil => intro jar k; simp [setCookies, lastVal]
  | cons p ps ih =>
    intro jar k
    have h1 : setCookies jar (p :: ps) = setCookies (setCookiePair jar p.1 p.2) ps := rfl
    have hl : lastVal (p :: ps) k
        = Option.or (lastVal ps k) (if p.1 = k then some p.2 else none) := by
      simp only [lastVal, List.foldl_cons]
      exact lastVal_foldl k ps (if p.1 = k then some p.2 else none)
    rw [h1, ih, lookup_setCookiePair, hl, optionOr_assoc, optionOr_ite_none]
    by_cases h : p.1 = k
    · simp [h]
    · have hk : ¬(k = p.1) := fun hh => h hh.symm
      simp [h, hk]

theorem runRequests_foldl :
    ∀ (resps : List (List (String × String))) (acc : List (List (String × String)))
      (jar0 : List (String × String)),
      resps.foldl
        (fun st resp => (st.1 ++ [(sendRequestJar st.2 resp).1], (sendRequestJar st.2 resp).2))
        (acc, jar0)
        = (acc ++ (List.range resps.length).map (fun i => (resps.take i).foldl setCookies jar0),
           resps.foldl setCookies jar0) := by
  intro resps
  induction resps with
  | nil => intro acc jar0; simp
  | cons r rs ih =>
    intro acc jar0
    rw [List.foldl_cons]
    show List.foldl _ (acc ++ [jar0], setCookies jar0 r) rs = _
    rw [ih (acc ++ [jar0]) (setCookies jar0 r)]
    simp [List.range_succ_eq_map, List.map_map, Function.comp, List.take_succ_cons]

/-- C9: session-state invariant of the sequential request runs the engine
performs.  First part: the cookie set attached to the i-th outgoing
request is exactly the jar accumulated by merging the set-cookie pairs of
all previous responses into the initial jar, and the final jar is the
merge of all responses; hence once authentication has succeeded (its
responses merged), every later request carries the latest accumulated
cookie set.  Second part (merge semantics): after merging a response, a
key set by the response holds the last value the response assigned to it
(same-named existing keys are overwritten), and every other key keeps its
previous value (cookies are never removed); the merge is applied to the
jar the following operations and callbacks observe. -/
theorem c9_cookie_session_invariant :
    (∀ (jar0 : List (String × String)) (resps : List (List (String × String))),
        (runRequests jar0 resps).1
          = (List.range resps.length).map (fun i => (resps.take i).foldl setCookies jar0)
        ∧ (runRequests jar0 resps).2 = resps.foldl setCookies jar0)
    ∧ (∀ (jar pairs : List (String × String)) (k : String),
        cookieLookup (setCookies jar pairs) k
          = Option.or (lastVal pairs k) (cookieLookup jar k)) := by
  refine ⟨fun jar0 resps => ?_, fun jar pairs k => lookup_setCookies pairs jar k⟩
  have h := runRequests_foldl resps [] jar0
  constructor
  · simpa [runRequests] using congrArg Prod.fst h
  · simpa [runRequests] using congrArg Prod.snd h

end Footbooker
